import Mathlib

set_option maxRecDepth 100000

/-!
Shallow embedding of scripts/reverse-engineering/extract_decoder.py.

The script reads one text document, extracts four fragments with
layered pattern strategies, and writes their concatenation plus a fixed
trailer to an output file.  We model the document as a list of
characters, the regular-expression searches of the source as explicit
backtracking matchers with Python semantics (leftmost search position
wins; lazy dot-star tries shortest first and never crosses a newline;
a greedy character class tries longest first), and str.find as leftmost
literal substring search.  The extractor returns the list of printed
messages together with an optional output document; a missing output
models the source returning before the output file is opened.
-/

/-- Characters accepted by the regex character class of lowercase
letters, uppercase letters, digits, underscore and comma. -/
def isWordComma (c : Char) : Bool :=
  (Char.ofNat 97 ≤ c && c ≤ Char.ofNat 122) ||
  (Char.ofNat 65 ≤ c && c ≤ Char.ofNat 90) ||
  (Char.ofNat 48 ≤ c && c ≤ Char.ofNat 57) ||
  c == Char.ofNat 95 || c == Char.ofNat 44

/-- Characters accepted by the regex character class of digits and
lowercase hexadecimal letters. -/
def isHexLower (c : Char) : Bool :=
  (Char.ofNat 48 ≤ c && c ≤ Char.ofNat 57) ||
  (Char.ofNat 97 ≤ c && c ≤ Char.ofNat 102)

/-- Match a literal piece at the head of the suffix, then continue with
the rest of the pattern; the result is the total matched length. -/
def matchLit (lit : List Char) (k : List Char → Option Nat) (s : List Char) :
    Option Nat :=
  if lit.isPrefixOf s then (k (List.drop lit.length s)).map (fun n => n + lit.length)
  else none

/-- The empty continuation closing a pattern. -/
def matchEnd : List Char → Option Nat := fun _ => some 0

/-- Greedy one-or-more character class with backtracking: try consuming
n characters first, then shorter runs, continuing with k after each. -/
def matchPlusFrom (p : Char → Bool) (k : List Char → Option Nat)
    (s : List Char) : Nat → Option Nat
  | 0 => none
  | Nat.succ n =>
    if (List.take (n + 1) s).all p then
      match k (List.drop (n + 1) s) with
      | some m => some (n + 1 + m)
      | none => matchPlusFrom p k s n
    else matchPlusFrom p k s n

/-- Greedy one-or-more character class: longest run first, as the regex
engine of the source does. -/
def matchPlus (p : Char → Bool) (k : List Char → Option Nat) (s : List Char) :
    Option Nat :=
  matchPlusFrom p k s (List.takeWhile p s).length

/-- Lazy dot-star followed by the rest of the pattern: try the rest at
the current position first, else consume one non-newline character and
retry.  The dot of the source regexes does not match a newline. -/
def lazyThen (tail : List Char → Option Nat) : List Char → Option Nat
  | [] => tail []
  | c :: t =>
    match tail (c :: t) with
    | some m => some m
    | none =>
      if c == Char.ofNat 10 then none
      else (lazyThen tail t).map (fun n => n + 1)

/-- re.search: try the matcher at every position from the left; return
the first position where it succeeds together with the matched length. -/
def reSearch (m : List Char → Option Nat) : List Char → Option (Nat × Nat)
  | [] => (m []).map (fun len => (0, len))
  | c :: t =>
    match m (c :: t) with
    | some len => some (0, len)
    | none => (reSearch m t).map (fun q => (q.1 + 1, q.2))

/-- str.find: index of the leftmost occurrence of pat in s, if any. -/
def strFind (pat : List Char) : List Char → Option Nat
  | [] => if pat.isPrefixOf ([] : List Char) then some 0 else none
  | c :: t =>
    if pat.isPrefixOf (c :: t) then some 0
    else (strFind pat t).map (fun n => n + 1)

/-- str.find with a start index: search in the suffix from that index
and report an absolute index. -/
def strFindFrom (pat s : List Char) (start : Nat) : Option Nat :=
  (strFind pat (List.drop start s)).map (fun n => n + start)

/-- Python string slicing s[i:j]. -/
def pySlice (s : List Char) (i j : Nat) : List Char :=
  List.take (j - i) (List.drop i s)

/-- Start literal of the lookup-table regex. -/
def tok8b05Start : List Char := "function _0x8b05()\x7b".toList

/-- End literal of the lookup-table regex. -/
def tok8b05End : List Char := "return _0x8b05();\x7d".toList

/-- Matcher of the lookup-table regex. -/
def m8b05 : List Char → Option Nat :=
  matchLit tok8b05Start (lazyThen (matchLit tok8b05End matchEnd))

/-- Start literal shared by both decoder regexes. -/
def tokB4a0Lit : List Char := "function _0xb4a0(".toList

/-- End part of the first decoder regex: the recursive self-invocation. -/
def mB4a0End1 : List Char → Option Nat :=
  matchLit "_0xb4a0(".toList
    (matchPlus isWordComma (matchLit ");\x7d".toList matchEnd))

/-- Matcher of the first decoder regex. -/
def mB4a0Pat1 : List Char → Option Nat :=
  matchLit tokB4a0Lit
    (matchPlus isWordComma (matchLit ")\x7b".toList (lazyThen mB4a0End1)))

/-- Matcher of the second decoder regex: the indexed-return end. -/
def mB4a0Pat2 : List Char → Option Nat :=
  matchLit tokB4a0Lit
    (matchPlus isWordComma
      (matchLit ")\x7b".toList
        (lazyThen (matchLit "return _0x8b0550[t];\x7d".toList matchEnd))))

/-- Literal searched by content.find for the decoder fallback. -/
def tokB4a0Find : List Char := "function _0xb4a0".toList

/-- Literal of the shuffle start, used by both positional fallbacks. -/
def tokShuffleStart : List Char := "(function(_0x9dcbec".toList

/-- End part of the shuffle regex. -/
def mShuffleEnd : List Char → Option Nat :=
  matchLit "(_0x8b05,0x".toList
    (matchPlus isHexLower (matchLit "));".toList matchEnd))

/-- Matcher of the shuffle regex. -/
def mShuffle : List Char → Option Nat :=
  matchLit "(function(_0x9dcbec,_0x4ab1b0)\x7b".toList (lazyThen mShuffleEnd)

/-- Next-statement literal of the shuffle positional fallback. -/
def tokShuffleNext : List Char := ",!(function".toList

/-- Prefix literal of the configuration regex, up to the opening quote
of the payload. -/
def cfgPre : List Char := "window[\x27ZpQw9XkLmN8c3vR3\x27]=\x27".toList

/-- Suffix literal of the configuration regex: closing quote and
semicolon. -/
def cfgSuf : List Char := "\x27;".toList

/-- Matcher of the configuration regex; the capture group is the lazy
middle between the two literals. -/
def mConfig : List Char → Option Nat :=
  matchLit cfgPre (lazyThen (matchLit cfgSuf matchEnd))

/-- The lookup-table fragment produced by the single strategy. -/
def frag8b05 (content : List Char) : Option (List Char) :=
  (reSearch m8b05 content).map (fun q => pySlice content q.1 (q.1 + q.2))

/-- The decoder fragment: first regex, else second regex, else the
positional fallback from the find of the start token to the find of the
shuffle start. -/
def fragB4a0 (content : List Char) : Option (List Char) :=
  match Option.orElse (reSearch mB4a0Pat1 content)
      (fun _ => reSearch mB4a0Pat2 content) with
  | some q => some (pySlice content q.1 (q.1 + q.2))
  | none =>
    match strFind tokB4a0Find content with
    | none => none
    | some i =>
      match strFindFrom tokShuffleStart content i with
      | none => none
      | some j => some (pySlice content i j)

/-- The shuffle fragment: the regex, else the positional fallback from
the find of the shuffle start to the find of the next-statement marker. -/
def fragShuffle (content : List Char) : Option (List Char) :=
  match reSearch mShuffle content with
  | some q => some (pySlice content q.1 (q.1 + q.2))
  | none =>
    match strFind tokShuffleStart content with
    | none => none
    | some i =>
      match strFindFrom tokShuffleNext content i with
      | none => none
      | some j => some (pySlice content i j)

/-- The configuration payload: group one of the configuration regex,
the matched text stripped of its literal prefix and suffix. -/
def fragConfig (content : List Char) : Option (List Char) :=
  (reSearch mConfig content).map
    (fun q => pySlice content (q.1 + cfgPre.length) (q.1 + q.2 - cfgSuf.length))

/-- Diagnostic printed when the lookup-table function is not found. -/
def msgNo8b05 : String := "Could not find _0x8b05 function"

/-- Diagnostic printed when the decoder start token is not found. -/
def msgNoB4a0 : String := "Could not find _0xb4a0 function"

/-- Diagnostic printed when the decoder end is not found. -/
def msgNoB4a0End : String := "Could not find end of _0xb4a0"

/-- Diagnostic printed when the shuffle regex does not match. -/
def msgNoShuffle : String := "Could not find shuffle IIFE"

/-- Diagnostic printed when the shuffle fallback end is not found. -/
def msgNoShuffleEnd : String := "Could not find end of shuffle IIFE"

/-- Diagnostic printed when the configuration string is not found. -/
def msgNoConfig : String := "Could not find config string"

/-- The fixed destination path of the source. -/
def output_path : String :=
  "C:\\Users\\Nicks\\Desktop\\Flyx-main\\scripts\\reverse-engineering\\decoder_parts.js"

/-- Message printed on success, naming the output path. -/
def successMsg : String :=
  "Successfully extracted decoder parts to " ++ output_path

/-- The newline appended after each fragment. -/
def nlChar : List Char := "\n".toList

/-- Head of the configuration constant line of the output. -/
def cfgDeclPre : List Char := "const configString = \x27".toList

/-- Tail of the configuration constant line of the output. -/
def cfgDeclSuf : List Char := "\x27;\n".toList

/-- The module-export trailer line of the output. -/
def exportLine : List Char :=
  "module.exports = \x7b _0xb4a0, configString \x7d;\n".toList

/-- The assembled output document: the three fragments each followed by
a newline, the configuration constant line, and the export line. -/
def assemble (f8 fb sh cf : List Char) : List Char :=
  f8 ++ nlChar ++ fb ++ nlChar ++ sh ++ nlChar ++
    cfgDeclPre ++ cf ++ cfgDeclSuf ++ exportLine

/-- Last stage of the extractor: the configuration search, then the
write of the output and the success message. -/
def stageConfig (content f8 fb sh : List Char) (msgs : List String) :
    List String × Option (List Char) :=
  match reSearch mConfig content with
  | none => (msgs ++ [msgNoConfig], none)
  | some q =>
    (msgs ++ [successMsg],
      some (assemble f8 fb sh
        (pySlice content (q.1 + cfgPre.length) (q.1 + q.2 - cfgSuf.length))))

/-- Shuffle stage of the extractor.  On regex failure the diagnostic is
printed before the positional fallback is attempted, and when the start
token is absent the source returns with no further message. -/
def stageShuffle (content f8 fb : List Char) :
    List String × Option (List Char) :=
  match reSearch mShuffle content with
  | some q => stageConfig content f8 fb (pySlice content q.1 (q.1 + q.2)) []
  | none =>
    match strFind tokShuffleStart content with
    | none => ([msgNoShuffle], none)
    | some i =>
      match strFindFrom tokShuffleNext content i with
      | none => ([msgNoShuffle, msgNoShuffleEnd], none)
      | some j => stageConfig content f8 fb (pySlice content i j) [msgNoShuffle]

/-- Decoder stage of the extractor: two regexes, then the positional
fallback bounded by the shuffle start. -/
def stageB4a0 (content f8 : List Char) : List String × Option (List Char) :=
  match Option.orElse (reSearch mB4a0Pat1 content)
      (fun _ => reSearch mB4a0Pat2 content) with
  | some q => stageShuffle content f8 (pySlice content q.1 (q.1 + q.2))
  | none =>
    match strFind tokB4a0Find content with
    | none => ([msgNoB4a0], none)
    | some i =>
      match strFindFrom tokShuffleStart content i with
      | none => ([msgNoB4a0End], none)
      | some j => stageShuffle content f8 (pySlice content i j)

/-- The extractor of the source, on an explicit document: the list of
printed messages together with the output document, when one is
written. -/
def extract_decoder (content : List Char) : List String × Option (List Char) :=
  match reSearch m8b05 content with
  | none => ([msgNo8b05], none)
  | some q => stageB4a0 content (pySlice content q.1 (q.1 + q.2))

/-- Sequencing of the four optional fragments into the output. -/
def assembleOpt (a b c d : Option (List Char)) : Option (List Char) :=
  match a with
  | none => none
  | some f8 =>
    match b with
    | none => none
    | some fb =>
      match c with
      | none => none
      | some sh => d.map (fun cf => assemble f8 fb sh cf)

/-! ### Basic lemmas about the matching primitives -/

/-- Boolean prefix test as an existential decomposition. -/
theorem isPrefixOf_ex : ∀ (pat s : List Char),
    pat.isPrefixOf s = true ↔ ∃ t, s = pat ++ t
  | [], s => by simp [List.isPrefixOf]
  | a :: as, [] => by simp [List.isPrefixOf]
  | a :: as, b :: bs => by
    simp only [List.isPrefixOf, Bool.and_eq_true, beq_iff_eq, List.cons_append,
      List.cons.injEq]
    constructor
    · rintro ⟨rfl, h⟩
      obtain ⟨t, rfl⟩ := (isPrefixOf_ex as bs).1 h
      exact ⟨t, rfl, rfl⟩
    · rintro ⟨t, rfl, rfl⟩
      exact ⟨rfl, (isPrefixOf_ex as (as ++ t)).2 ⟨t, rfl⟩⟩

/-- A nonempty pattern that is a prefix of a suffix starts inside the
document. -/
theorem lt_length_of_isPrefixOf {pat s : List Char} {n : Nat} (hne : pat ≠ [])
    (h : pat.isPrefixOf (List.drop n s) = true) : n < s.length := by
  obtain ⟨t, ht⟩ := (isPrefixOf_ex pat (List.drop n s)).1 h
  by_contra hn
  push_neg at hn
  rw [List.drop_eq_nil_of_le hn] at ht
  exact hne (List.append_eq_nil.1 ht.symm).1

/-- A successful strFind points at a leftmost occurrence. -/
theorem strFind_spec : ∀ (pat s : List Char) (n : Nat), strFind pat s = some n →
    pat.isPrefixOf (List.drop n s) = true ∧
      ∀ k, k < n → pat.isPrefixOf (List.drop k s) = false
  | pat, [], n => by
    intro h
    simp only [strFind] at h
    split at h
    · rename_i hp
      obtain rfl : (0 : Nat) = n := Option.some.inj h
      exact ⟨by simpa using hp, fun k hk => absurd hk (by omega)⟩
    · simp at h
  | pat, c :: t, n => by
    intro h
    simp only [strFind] at h
    split at h
    · rename_i hp
      obtain rfl : (0 : Nat) = n := Option.some.inj h
      exact ⟨by simpa using hp, fun k hk => absurd hk (by omega)⟩
    · rename_i hp
      cases hf : strFind pat t with
      | none => rw [hf] at h; simp at h
      | some m =>
        rw [hf] at h
        simp at h
        obtain ⟨hpre, hmin⟩ := strFind_spec pat t m hf
        subst h
        refine ⟨by simpa using hpre, ?_⟩
        intro k hk
        cases k with
        | zero => rw [List.drop_zero]; exact Bool.eq_false_iff.2 hp
        | succ k0 => simpa using hmin k0 (by omega)

/-- A failing strFind means the pattern occurs nowhere. -/
theorem strFind_none : ∀ (pat s : List Char), strFind pat s = none →
    ∀ k, pat.isPrefixOf (List.drop k s) = false
  | pat, [], h => by
    simp only [strFind] at h
    split at h
    · simp at h
    · rename_i hp
      intro k
      rw [List.drop_nil]
      exact Bool.eq_false_iff.2 hp
  | pat, c :: t, h => by
    simp only [strFind] at h
    split at h
    · simp at h
    · rename_i hp
      intro k
      cases k with
      | zero => rw [List.drop_zero]; exact Bool.eq_false_iff.2 hp
      | succ k0 =>
        cases hf : strFind pat t with
        | none => simpa using strFind_none pat t hf k0
        | some m => rw [hf] at h; simp at h

/-- A successful strFindFrom stays at or after the start index, finds an
occurrence there, and skips no earlier occurrence at or after start. -/
theorem strFindFrom_spec {pat s : List Char} {start j : Nat}
    (h : strFindFrom pat s start = some j) :
    start ≤ j ∧ pat.isPrefixOf (List.drop j s) = true ∧
      ∀ k, start ≤ k → k < j → pat.isPrefixOf (List.drop k s) = false := by
  unfold strFindFrom at h
  cases hf : strFind pat (List.drop start s) with
  | none => rw [hf] at h; simp at h
  | some n =>
    rw [hf] at h
    simp at h
    obtain ⟨hpre, hmin⟩ := strFind_spec pat (List.drop start s) n hf
    subst h
    rw [List.drop_drop] at hpre
    rw [Nat.add_comm start n] at hpre
    refine ⟨by omega, hpre, ?_⟩
    intro k hk1 hk2
    have hx := hmin (k - start) (by omega)
    rw [List.drop_drop] at hx
    have hksub : start + (k - start) = k := by omega
    rwa [hksub] at hx

/-- A successful reSearch matches at its reported position and at no
earlier position. -/
theorem reSearch_spec : ∀ (m : List Char → Option Nat) (s : List Char)
    (i len : Nat), reSearch m s = some (i, len) →
    m (List.drop i s) = some len ∧ ∀ k, k < i → m (List.drop k s) = none
  | m, [], i, len => by
    intro h
    cases hm : m [] with
    | none => simp [reSearch, hm] at h
    | some l0 =>
      simp [reSearch, hm] at h
      obtain ⟨h1, h2⟩ := h
      subst h1
      subst h2
      exact ⟨by simpa using hm, fun k hk => absurd hk (by omega)⟩
  | m, c :: t, i, len => by
    intro h
    cases hm : m (c :: t) with
    | some l0 =>
      simp [reSearch, hm] at h
      obtain ⟨h1, h2⟩ := h
      subst h1
      subst h2
      exact ⟨by simpa using hm, fun k hk => absurd hk (by omega)⟩
    | none =>
      simp only [reSearch] at h
      rw [hm] at h
      cases hr : reSearch m t with
      | none => rw [hr] at h; simp at h
      | some q =>
        obtain ⟨qi, ql⟩ := q
        rw [hr] at h
        simp at h
        obtain ⟨h1, h2⟩ := h
        obtain ⟨hpre, hmin⟩ := reSearch_spec m t qi ql hr
        subst h1
        subst h2
        refine ⟨by simpa using hpre, ?_⟩
        intro k hk
        cases k with
        | zero => simpa using hm
        | succ k0 => simpa using hmin k0 (by omega)

/-- A failing reSearch means the matcher succeeds at no position. -/
theorem reSearch_none : ∀ (m : List Char → Option Nat) (s : List Char),
    reSearch m s = none → ∀ k, m (List.drop k s) = none
  | m, [], h => by
    cases hm : m [] with
    | none => intro k; simpa using hm
    | some l0 => simp [reSearch, hm] at h
  | m, c :: t, h => by
    cases hm : m (c :: t) with
    | some l0 => simp [reSearch, hm] at h
    | none =>
      intro k
      cases k with
      | zero => simpa using hm
      | succ k0 =>
        simp only [reSearch] at h
        rw [hm] at h
        cases hr : reSearch m t with
        | none => simpa using reSearch_none m t hr k0
        | some q => rw [hr] at h; simp at h

/-- Decomposition of a successful literal match. -/
theorem matchLit_some {lit : List Char} {k : List Char → Option Nat}
    {s : List Char} {n : Nat} (h : matchLit lit k s = some n) :
    lit.isPrefixOf s = true ∧
      ∃ m, k (List.drop lit.length s) = some m ∧ n = m + lit.length := by
  unfold matchLit at h
  split at h
  · rename_i hp
    cases hk : k (List.drop lit.length s) with
    | none => rw [hk] at h; simp at h
    | some m =>
      rw [hk] at h
      simp at h
      exact ⟨hp, m, rfl, by omega⟩
  · simp at h

/-- Decomposition of a successful lazy dot-star: some number of
non-newline characters are skipped and the tail matches right after. -/
theorem lazyThen_some : ∀ (tail : List Char → Option Nat) (s : List Char)
    (n : Nat), lazyThen tail s = some n →
    ∃ j m, j ≤ s.length ∧ tail (List.drop j s) = some m ∧ n = m + j ∧
      ∀ c ∈ List.take j s, ¬ c = Char.ofNat 10
  | tail, [], n => fun h =>
    ⟨0, n, Nat.zero_le _, by simpa [lazyThen] using h, by omega, by simp⟩
  | tail, c :: t, n => by
    intro h
    cases hm : tail (c :: t) with
    | some m =>
      simp [lazyThen, hm] at h
      subst h
      exact ⟨0, m, Nat.zero_le _, by simpa using hm, by omega, by simp⟩
    | none =>
      simp only [lazyThen] at h
      rw [hm] at h
      simp only at h
      split at h
      · simp at h
      · rename_i hc
        cases hl : lazyThen tail t with
        | none => rw [hl] at h; simp at h
        | some n0 =>
          rw [hl] at h
          simp at h
          obtain ⟨j, m, hj, hm0, hn0, hnl⟩ := lazyThen_some tail t n0 hl
          refine ⟨j + 1, m, by simp only [List.length_cons]; omega,
            by simpa using hm0, by omega, ?_⟩
          intro d hd
          rw [List.take_succ_cons] at hd
          rcases List.mem_cons.1 hd with rfl | hd2
          · simpa using hc
          · exact hnl d hd2

/-- A regex beginning with a literal whose head extends a find token can
only match where the find token occurs; when str.find fails, the regex
search fails as well. -/
theorem reSearch_matchLit_none {lit big : List Char} {k : List Char → Option Nat}
    {content : List Char} (hpre : ∃ r, big = lit ++ r)
    (hf : strFind lit content = none) :
    reSearch (matchLit big k) content = none := by
  cases hq : reSearch (matchLit big k) content with
  | none => rfl
  | some q =>
    obtain ⟨qi, ql⟩ := q
    have hm := (reSearch_spec _ _ _ _ hq).1
    obtain ⟨hA, -⟩ := matchLit_some hm
    obtain ⟨t, ht⟩ := (isPrefixOf_ex _ _).1 hA
    obtain ⟨r, rfl⟩ := hpre
    have hfind : lit.isPrefixOf (List.drop qi content) = true := by
      rw [ht, List.append_assoc]
      exact (isPrefixOf_ex _ _).2 ⟨r ++ t, rfl⟩
    have hcontra := strFind_none _ _ hf qi
    rw [hfind] at hcontra
    simp at hcontra

/-- Full decomposition of a literal, lazy dot-star, literal pattern:
the match is the first literal, a newline-free middle of length j, and
the second literal. -/
theorem litLazyLit_some {A B s : List Char} {n : Nat}
    (h : matchLit A (lazyThen (matchLit B matchEnd)) s = some n) :
    ∃ j, A.isPrefixOf s = true ∧
      B.isPrefixOf (List.drop (A.length + j) s) = true ∧
      (∀ c ∈ List.take j (List.drop A.length s), ¬ c = Char.ofNat 10) ∧
      n = A.length + j + B.length ∧
      List.take n s = A ++ List.take j (List.drop A.length s) ++ B := by
  obtain ⟨hA, m1, hlazy, hn⟩ := matchLit_some h
  obtain ⟨j, m2, hj, htail, hm1, hnl⟩ := lazyThen_some _ _ _ hlazy
  obtain ⟨hB, m3, hend, hm2⟩ := matchLit_some htail
  have hm3 : m3 = 0 := by simpa [matchEnd] using hend.symm
  rw [List.drop_drop] at hB
  have hlen : n = A.length + j + B.length := by omega
  refine ⟨j, hA, hB, hnl, hlen, ?_⟩
  obtain ⟨t, hs⟩ := (isPrefixOf_ex _ _).1 hA
  have hdt : List.drop A.length s = t := by rw [hs, List.drop_left]
  rw [hdt]
  obtain ⟨u, hu⟩ := (isPrefixOf_ex _ _).1 hB
  have hdu : List.drop j t = B ++ u := by
    rw [← hdt, List.drop_drop, hu]
  have hjt : j ≤ t.length := by rwa [hdt] at hj
  have h1 : (List.take j t).length = j := by rw [List.length_take]; omega
  have ht2 : t = List.take j t ++ (B ++ u) := by
    conv_lhs => rw [← List.take_append_drop j t]
    rw [hdu]
  have key : List.take (j + B.length) t = List.take j t ++ B := by
    conv_lhs => rw [ht2]
    rw [List.take_append_eq_append_take, h1]
    rw [List.take_of_length_le
      (show (List.take j t).length ≤ j + B.length by rw [h1]; omega)]
    have h2 : j + B.length - j = B.length := by omega
    rw [h2, List.take_left]
  rw [hs, List.take_append_eq_append_take]
  rw [List.take_of_length_le (show A.length ≤ n by omega)]
  have h3 : n - A.length = j + B.length := by omega
  rw [h3, key, List.append_assoc]

/-- A slice from i to j glued back onto the suffix from j recovers the
suffix from i. -/
theorem pySlice_append_drop {s : List Char} {i j : Nat} (hij : i ≤ j) :
    pySlice s i j ++ List.drop j s = List.drop i s := by
  unfold pySlice
  have h1 : List.drop j s = List.drop (j - i) (List.drop i s) := by
    rw [List.drop_drop]
    congr 1
    omega
  rw [h1, List.take_append_drop]

/-- The output of the configuration stage is the assembled document
over the captured payload. -/
theorem stageConfig_snd (c f8 fb sh : List Char) (msgs : List String) :
    (stageConfig c f8 fb sh msgs).2 =
      (fragConfig c).map (fun cf => assemble f8 fb sh cf) := by
  unfold stageConfig fragConfig
  cases h : reSearch mConfig c <;> simp

/-- The output of the shuffle stage is determined by the shuffle and
configuration fragments. -/
theorem stageShuffle_snd (c f8 fb : List Char) :
    (stageShuffle c f8 fb).2 =
      match fragShuffle c with
      | none => none
      | some sh => (fragConfig c).map (fun cf => assemble f8 fb sh cf) := by
  unfold stageShuffle fragShuffle
  cases h : reSearch mShuffle c with
  | some q => simp [stageConfig_snd]
  | none =>
    cases h2 : strFind tokShuffleStart c with
    | none => simp
    | some i =>
      cases h3 : strFindFrom tokShuffleNext c i with
      | none => simp [h3]
      | some j => simp [h3, stageConfig_snd]

/-- The output of the decoder stage is determined by the decoder,
shuffle and configuration fragments. -/
theorem stageB4a0_snd (c f8 : List Char) :
    (stageB4a0 c f8).2 =
      match fragB4a0 c with
      | none => none
      | some fb => (stageShuffle c f8 fb).2 := by
  unfold stageB4a0 fragB4a0
  cases h : Option.orElse (reSearch mB4a0Pat1 c)
      (fun _ => reSearch mB4a0Pat2 c) with
  | some q => simp
  | none =>
    cases h2 : strFind tokB4a0Find c with
    | none => simp
    | some i =>
      cases h3 : strFindFrom tokShuffleStart c i with
      | none => simp [h3]
      | some j => simp [h3]

/-- The output of the extractor is the sequenced assembly of the four
fragment extractions. -/
theorem extract_snd (c : List Char) :
    (extract_decoder c).2 =
      assembleOpt (frag8b05 c) (fragB4a0 c) (fragShuffle c) (fragConfig c) := by
  unfold extract_decoder frag8b05 assembleOpt
  cases h : reSearch m8b05 c with
  | none => simp
  | some q =>
    simp only [Option.map_some]
    rw [stageB4a0_snd]
    cases h2 : fragB4a0 c with
    | none => simp
    | some fb =>
      simp only []
      rw [stageShuffle_snd]
      cases h3 : fragShuffle c with
      | none => simp
      | some sh => simp

/-- Message behavior of the configuration stage: the success message is
appended on success, the missing-configuration diagnostic on failure. -/
theorem stageConfig_msgs (c f8 fb sh : List Char) (msgs : List String) :
    ((stageConfig c f8 fb sh msgs).2.isSome = true →
      (stageConfig c f8 fb sh msgs).1 = msgs ++ [successMsg]) ∧
    ((stageConfig c f8 fb sh msgs).2 = none →
      (stageConfig c f8 fb sh msgs).1 = msgs ++ [msgNoConfig]) := by
  unfold stageConfig
  cases h : reSearch mConfig c <;> simp

/-- Message behavior of the shuffle stage: a successful run prints only
the success message when the shuffle regex matched, but prints the
shuffle diagnostic before it when the positional fallback was used; a
failing run prints one of four diagnostic lists. -/
theorem stageShuffle_msgs (c f8 fb : List Char) :
    ((stageShuffle c f8 fb).2.isSome = true →
      ((reSearch mShuffle c).isSome = true →
        (stageShuffle c f8 fb).1 = [successMsg]) ∧
      (reSearch mShuffle c = none →
        (stageShuffle c f8 fb).1 = [msgNoShuffle, successMsg])) ∧
    ((stageShuffle c f8 fb).2 = none →
      (stageShuffle c f8 fb).1 = [msgNoShuffle] ∨
      (stageShuffle c f8 fb).1 = [msgNoShuffle, msgNoShuffleEnd] ∨
      (stageShuffle c f8 fb).1 = [msgNoShuffle, msgNoConfig] ∨
      (stageShuffle c f8 fb).1 = [msgNoConfig]) := by
  unfold stageShuffle
  cases h : reSearch mShuffle c with
  | some q =>
    have hc := stageConfig_msgs c f8 fb (pySlice c q.1 (q.1 + q.2)) []
    constructor
    · intro hs
      refine ⟨fun _ => by simpa using hc.1 hs, fun hn => ?_⟩
      exact absurd hn (by simp)
    · intro hn
      exact Or.inr (Or.inr (Or.inr (by simpa using hc.2 hn)))
  | none =>
    cases h2 : strFind tokShuffleStart c with
    | none => simp
    | some i =>
      cases h3 : strFindFrom tokShuffleNext c i with
      | none => simp [h3]
      | some j =>
        simp only [h3]
        have hc := stageConfig_msgs c f8 fb (pySlice c i j) [msgNoShuffle]
        constructor
        · intro hs
          exact ⟨fun ht => by simp at ht, fun _ => by simpa using hc.1 hs⟩
        · intro hn
          exact Or.inr (Or.inr (Or.inl (by simpa using hc.2 hn)))

/-- Synthetic document containing all four fragments, each matched by
its primary strategy. -/
def docOK : List Char :=
  ("function _0x8b05()\x7ba;return _0x8b05();\x7dfunction _0xb4a0(b)\x7bc;_0xb4a0(d);\x7d(function(_0x9dcbec,_0x4ab1b0)\x7be(_0x8b05,0xf));window[\x27ZpQw9XkLmN8c3vR3\x27]=\x27g\x27;").toList

/-- Synthetic document on which the decoder primary regex matches while
the positional marker is also present further right. -/
def docC3a : List Char :=
  ("function _0xb4a0(a)\x7bq;_0xb4a0(a);\x7dEXTRA(function(_0x9dcbec").toList

/-- Synthetic document on which only the decoder positional fallback
can determine the fragment boundary. -/
def docC3b : List Char :=
  ("function _0xb4a0(a)\x7bzz\n(function(_0x9dcbecQQ").toList

/-- Synthetic document on which only the shuffle positional fallback
can determine the fragment boundary. -/
def docPos : List Char :=
  ("(function(_0x9dcbecAA,!(functionBB").toList

/-- Synthetic document on which the whole run succeeds but the shuffle
fragment is found by the positional fallback. -/
def docC6 : List Char :=
  ("function _0x8b05()\x7br;return _0x8b05();\x7dfunction _0xb4a0(a)\x7bq;_0xb4a0(a);\x7d(function(_0x9dcbec,_0x4ab1b0)\x7bw),!(function qwindow[\x27ZpQw9XkLmN8c3vR3\x27]=\x27p\x27;").toList

/-- Synthetic document whose first lookup-table start marker is cut off
from every end marker by a newline, while a second occurrence matches. -/
def docC9 : List Char :=
  ("function _0x8b05()\x7b\nreturn _0x8b05();\x7dfunction _0x8b05()\x7bAreturn _0x8b05();\x7dfunction _0xb4a0(b)\x7bc;_0xb4a0(d);\x7d(function(_0x9dcbec,_0x4ab1b0)\x7be(_0x8b05,0xf));window[\x27ZpQw9XkLmN8c3vR3\x27]=\x27g\x27;").toList

/-- Synthetic document containing both lookup-table tokens separated by
a newline only. -/
def docNl : List Char :=
  ("function _0x8b05()\x7b\nreturn _0x8b05();\x7d").toList

/-- Synthetic document with an empty configuration payload. -/
def docEmptyCfg : List Char :=
  ("window[\x27ZpQw9XkLmN8c3vR3\x27]=\x27\x27;").toList

/-- Claim C1: the output document exists exactly when all four fragment
extractions succeed; any single failure yields no output, so the file
write never happens on a failed run. -/
theorem C1_all_or_nothing (content : List Char) :
    ((extract_decoder content).2.isSome = true) ↔
      ((frag8b05 content).isSome = true ∧ (fragB4a0 content).isSome = true ∧
        (fragShuffle content).isSome = true ∧
        (fragConfig content).isSome = true) := by
  rw [extract_snd]
  unfold assembleOpt
  cases frag8b05 content <;> cases fragB4a0 content <;>
    cases fragShuffle content <;> cases fragConfig content <;> simp

/-- Claim C2: when an output document is produced it is exactly the
lookup-table fragment, newline, decoder fragment, newline, shuffle
fragment, newline, the configuration constant line with the captured
payload, and the export line, in that order and nothing else. -/
theorem C2_output_exact (content out : List Char)
    (h : (extract_decoder content).2 = some out) :
    ∃ f8 fb sh cf, frag8b05 content = some f8 ∧ fragB4a0 content = some fb ∧
      fragShuffle content = some sh ∧ fragConfig content = some cf ∧
      out = f8 ++ nlChar ++ fb ++ nlChar ++ sh ++ nlChar ++
        cfgDeclPre ++ cf ++ cfgDeclSuf ++ exportLine := by
  rw [extract_snd] at h
  unfold assembleOpt at h
  cases h8 : frag8b05 content with
  | none => rw [h8] at h; simp at h
  | some f8 =>
    rw [h8] at h
    cases hb : fragB4a0 content with
    | none => rw [hb] at h; simp at h
    | some fb =>
      rw [hb] at h
      cases hs : fragShuffle content with
      | none => rw [hs] at h; simp at h
      | some sh =>
        rw [hs] at h
        cases hc : fragConfig content with
        | none => rw [hc] at h; simp at h
        | some cf =>
          rw [hc] at h
          simp at h
          refine ⟨f8, fb, sh, cf, rfl, rfl, rfl, rfl, ?_⟩
          rw [← h]
          rfl

/-- The expected output document for the synthetic success document. -/
def docOKout : List Char :=
  ("function _0x8b05()\x7ba;return _0x8b05();\x7d\nfunction _0xb4a0(b)\x7bc;_0xb4a0(d);\x7d\n(function(_0x9dcbec,_0x4ab1b0)\x7be(_0x8b05,0xf));\nconst configString = \x27g\x27;\nmodule.exports = \x7b _0xb4a0, configString \x7d;\n").toList

/-- Witness for claim C2 on the synthetic success document. -/
theorem C2_output_exact_witness :
    ∃ f8 fb sh cf, frag8b05 docOK = some f8 ∧ fragB4a0 docOK = some fb ∧
      fragShuffle docOK = some sh ∧ fragConfig docOK = some cf ∧
      docOKout = f8 ++ nlChar ++ fb ++ nlChar ++ sh ++ nlChar ++
        cfgDeclPre ++ cf ++ cfgDeclSuf ++ exportLine :=
  C2_output_exact docOK docOKout (by decide)

/-- Claim C3: the three decoder end strategies are tried in fixed
order; the first regex wins when it matches, the second regex is used
only when the first fails, and the positional fallback determines the
fragment only when both regexes fail. -/
theorem C3_decoder_strategy_order (content : List Char) :
    (∀ i l, reSearch mB4a0Pat1 content = some (i, l) →
      fragB4a0 content = some (pySlice content i (i + l))) ∧
    (reSearch mB4a0Pat1 content = none →
      ∀ i l, reSearch mB4a0Pat2 content = some (i, l) →
        fragB4a0 content = some (pySlice content i (i + l))) ∧
    (reSearch mB4a0Pat1 content = none → reSearch mB4a0Pat2 content = none →
      ∀ i j, strFind tokB4a0Find content = some i →
        strFindFrom tokShuffleStart content i = some j →
        fragB4a0 content = some (pySlice content i j)) := by
  refine ⟨?_, ?_, ?_⟩
  · intro i l h
    simp [fragB4a0, h, Option.orElse]
  · intro h1 i l h2
    simp [fragB4a0, h1, h2, Option.orElse]
  · intro h1 h2 i j h3 h4
    simp [fragB4a0, h1, h2, h3, h4, Option.orElse]

/-- Witness for claim C3: on one document the precise end token and the
positional marker are both present with different boundaries and the
precise boundary wins; on another only the positional marker is present
and the fallback still yields the fragment. -/
theorem C3_decoder_strategy_order_witness :
    (fragB4a0 docC3a = some (pySlice docC3a 0 34) ∧
      strFindFrom tokShuffleStart docC3a 0 = some 39 ∧
      pySlice docC3a 0 34 ≠ pySlice docC3a 0 39) ∧
    fragB4a0 docC3b = some (pySlice docC3b 0 23) :=
  ⟨⟨(C3_decoder_strategy_order docC3a).1 0 34 (by decide), by decide, by decide⟩,
    (C3_decoder_strategy_order docC3b).2.2 (by decide) (by decide) 0 23
      (by decide) (by decide)⟩

/-- Claim C8: the extractor is a pure function of the document content,
so identical contents give identical messages and output. -/
theorem C8_deterministic (c1 c2 : List Char) (h : c1 = c2) :
    extract_decoder c1 = extract_decoder c2 := by rw [h]

/-- Witness for claim C8 at a concrete document. -/
theorem C8_deterministic_witness :
    extract_decoder docOK = extract_decoder docOK :=
  C8_deterministic docOK docOK rfl

/-- Claim C4: whenever the configuration regex matches, the matched
text is exactly the literal prefix, the captured payload and the
literal suffix, so the payload is the text between the quotes with
nothing added or stripped. -/
theorem C4_config_payload_exact (content : List Char) (i l : Nat)
    (h : reSearch mConfig content = some (i, l)) :
    ∃ payload, fragConfig content = some payload ∧
      pySlice content i (i + l) = cfgPre ++ payload ++ cfgSuf := by
  have hm := (reSearch_spec mConfig content i l h).1
  unfold mConfig at hm
  obtain ⟨j, hA, hB, hnl, hlen, htake⟩ := litLazyLit_some hm
  refine ⟨List.take j (List.drop (i + cfgPre.length) content), ?_, ?_⟩
  · unfold fragConfig
    rw [h]
    simp [pySlice]
    congr 1
    omega
  · unfold pySlice
    have hsub : i + l - i = l := by omega
    rw [hsub, htake, List.drop_drop]

/-- A complete synthetic document with an empty configuration
payload. -/
def docEmptyFull : List Char :=
  ("function _0x8b05()\x7ba;return _0x8b05();\x7dfunction _0xb4a0(b)\x7bc;_0xb4a0(d);\x7d(function(_0x9dcbec,_0x4ab1b0)\x7be(_0x8b05,0xf));window[\x27ZpQw9XkLmN8c3vR3\x27]=\x27\x27;").toList

/-- Witness for claim C4: the empty payload is captured exactly and a
full run with an empty payload still succeeds. -/
theorem C4_config_payload_exact_witness :
    (∃ payload, fragConfig docEmptyCfg = some payload ∧
      pySlice docEmptyCfg 0 (0 + 30) = cfgPre ++ payload ++ cfgSuf) ∧
    fragConfig docEmptyFull = some [] ∧
    (extract_decoder docEmptyFull).2.isSome = true :=
  ⟨C4_config_payload_exact docEmptyCfg 0 30 (by decide), by decide, by decide⟩

/-- Claim C5: when the decoder start token is absent the run produces
no output, and when the start token is present but both regexes and the
positional fallback find no end, the run also produces no output. -/
theorem C5_decoder_failure (content : List Char) :
    (strFind tokB4a0Find content = none → (extract_decoder content).2 = none) ∧
    (∀ i, reSearch mB4a0Pat1 content = none →
      reSearch mB4a0Pat2 content = none →
      strFind tokB4a0Find content = some i →
      strFindFrom tokShuffleStart content i = none →
      (extract_decoder content).2 = none) := by
  constructor
  · intro hf
    have h1 : reSearch mB4a0Pat1 content = none := by
      unfold mB4a0Pat1
      exact reSearch_matchLit_none ⟨"(".toList, by decide⟩ hf
    have h2 : reSearch mB4a0Pat2 content = none := by
      unfold mB4a0Pat2
      exact reSearch_matchLit_none ⟨"(".toList, by decide⟩ hf
    have hb : fragB4a0 content = none := by
      simp [fragB4a0, h1, h2, hf, Option.orElse]
    rw [extract_snd]
    unfold assembleOpt
    cases frag8b05 content <;> simp [hb]
  · intro i h1 h2 h3 h4
    have hb : fragB4a0 content = none := by
      simp [fragB4a0, h1, h2, h3, h4, Option.orElse]
    rw [extract_snd]
    unfold assembleOpt
    cases frag8b05 content <;> simp [hb]

/-- Synthetic document whose decoder start token is present but which
contains no end for any decoder strategy. -/
def docB4a0NoEnd : List Char := ("function _0xb4a0(a)\x7bz").toList

/-- Witness for claim C5 on an empty document and on a document with a
decoder start token but no end. -/
theorem C5_decoder_failure_witness :
    (extract_decoder ([] : List Char)).2 = none ∧
    (extract_decoder docB4a0NoEnd).2 = none :=
  ⟨(C5_decoder_failure []).1 (by decide),
    (C5_decoder_failure docB4a0NoEnd).2 0 (by decide) (by decide) (by decide)
      (by decide)⟩

/-- Claim C7: each positional fallback slices from the start token up
to, but not including, the found marker: the slice glued to the suffix
at the marker recovers the suffix at the start, and the marker text
begins exactly at the cut. -/
theorem C7_fallback_excludes_marker (content : List Char) :
    (∀ i j, reSearch mB4a0Pat1 content = none →
      reSearch mB4a0Pat2 content = none →
      strFind tokB4a0Find content = some i →
      strFindFrom tokShuffleStart content i = some j →
      fragB4a0 content = some (pySlice content i j) ∧
      pySlice content i j ++ List.drop j content = List.drop i content ∧
      tokShuffleStart.isPrefixOf (List.drop j content) = true) ∧
    (∀ i j, reSearch mShuffle content = none →
      strFind tokShuffleStart content = some i →
      strFindFrom tokShuffleNext content i = some j →
      fragShuffle content = some (pySlice content i j) ∧
      pySlice content i j ++ List.drop j content = List.drop i content ∧
      tokShuffleNext.isPrefixOf (List.drop j content) = true) := by
  constructor
  · intro i j h1 h2 h3 h4
    obtain ⟨hij, hpre, -⟩ := strFindFrom_spec h4
    refine ⟨?_, pySlice_append_drop hij, hpre⟩
    simp [fragB4a0, h1, h2, h3, h4, Option.orElse]
  · intro i j h1 h2 h3
    obtain ⟨hij, hpre, -⟩ := strFindFrom_spec h3
    refine ⟨?_, pySlice_append_drop hij, hpre⟩
    simp [fragShuffle, h1, h2, h3]

/-- Witness for claim C7 on the two fallback documents. -/
theorem C7_fallback_excludes_marker_witness :
    (fragB4a0 docC3b = some (pySlice docC3b 0 23) ∧
      pySlice docC3b 0 23 ++ List.drop 23 docC3b = List.drop 0 docC3b ∧
      tokShuffleStart.isPrefixOf (List.drop 23 docC3b) = true) ∧
    (fragShuffle docPos = some (pySlice docPos 0 21) ∧
      pySlice docPos 0 21 ++ List.drop 21 docPos = List.drop 0 docPos ∧
      tokShuffleNext.isPrefixOf (List.drop 21 docPos) = true) :=
  ⟨(C7_fallback_excludes_marker docC3b).1 0 23 (by decide) (by decide)
      (by decide) (by decide),
    (C7_fallback_excludes_marker docPos).2 0 21 (by decide) (by decide)
      (by decide)⟩

/-- Rewriting equation: when the lookup-table regex fails the extractor
stops with its diagnostic. -/
theorem extract_eq_no8b05 {content : List Char}
    (h : reSearch m8b05 content = none) :
    extract_decoder content = ([msgNo8b05], none) := by
  unfold extract_decoder
  rw [h]

/-- Rewriting equation: when the lookup-table regex matches the
extractor continues with the decoder stage. -/
theorem extract_eq_stage {content : List Char} {q : Nat × Nat}
    (h : reSearch m8b05 content = some q) :
    extract_decoder content =
      stageB4a0 content (pySlice content q.1 (q.1 + q.2)) := by
  unfold extract_decoder
  rw [h]

/-- Rewriting equation: a decoder regex match continues with the
shuffle stage. -/
theorem stageB4a0_eq_regex {content f8 : List Char} {q : Nat × Nat}
    (h : Option.orElse (reSearch mB4a0Pat1 content)
      (fun _ => reSearch mB4a0Pat2 content) = some q) :
    stageB4a0 content f8 =
      stageShuffle content f8 (pySlice content q.1 (q.1 + q.2)) := by
  unfold stageB4a0
  rw [h]

/-- Rewriting equation: with no decoder regex match and no decoder
start token the run stops with the decoder diagnostic. -/
theorem stageB4a0_eq_noStart {content f8 : List Char}
    (h1 : Option.orElse (reSearch mB4a0Pat1 content)
      (fun _ => reSearch mB4a0Pat2 content) = none)
    (h2 : strFind tokB4a0Find content = none) :
    stageB4a0 content f8 = ([msgNoB4a0], none) := by
  unfold stageB4a0
  rw [h1, h2]

/-- Rewriting equation: with no decoder regex match, a start token and
no shuffle-start marker after it the run stops with the decoder end
diagnostic. -/
theorem stageB4a0_eq_noEnd {content f8 : List Char} {i : Nat}
    (h1 : Option.orElse (reSearch mB4a0Pat1 content)
      (fun _ => reSearch mB4a0Pat2 content) = none)
    (h2 : strFind tokB4a0Find content = some i)
    (h3 : strFindFrom tokShuffleStart content i = none) :
    stageB4a0 content f8 = ([msgNoB4a0End], none) := by
  unfold stageB4a0
  simp only [h1, h2, h3]

/-- Rewriting equation: the decoder positional fallback continues with
the shuffle stage on its slice. -/
theorem stageB4a0_eq_fallback {content f8 : List Char} {i j : Nat}
    (h1 : Option.orElse (reSearch mB4a0Pat1 content)
      (fun _ => reSearch mB4a0Pat2 content) = none)
    (h2 : strFind tokB4a0Find content = some i)
    (h3 : strFindFrom tokShuffleStart content i = some j) :
    stageB4a0 content f8 = stageShuffle content f8 (pySlice content i j) := by
  unfold stageB4a0
  simp only [h1, h2, h3]

/-- Counterexample to claim C6 as stated: on this document the run
succeeds and writes output, yet two messages are printed, one of them
the shuffle failure diagnostic. -/
theorem C6_counterexample :
    (extract_decoder docC6).2.isSome = true ∧
    (extract_decoder docC6).1 = [msgNoShuffle, successMsg] := by decide

/-- Claim C6 (amended): on a successful run exactly one message naming
the output path is printed when the shuffle regex matched, but the
shuffle diagnostic precedes it when the shuffle fragment came from the
positional fallback; on a failed run the printed messages are one of
the specific diagnostic lists and no output is produced. -/
theorem C6_messages_amended (content : List Char) :
    ((extract_decoder content).2.isSome = true →
      ((reSearch mShuffle content).isSome = true →
        (extract_decoder content).1 = [successMsg]) ∧
      (reSearch mShuffle content = none →
        (extract_decoder content).1 = [msgNoShuffle, successMsg])) ∧
    ((extract_decoder content).2 = none →
      (extract_decoder content).1 = [msgNo8b05] ∨
      (extract_decoder content).1 = [msgNoB4a0] ∨
      (extract_decoder content).1 = [msgNoB4a0End] ∨
      (extract_decoder content).1 = [msgNoShuffle] ∨
      (extract_decoder content).1 = [msgNoShuffle, msgNoShuffleEnd] ∨
      (extract_decoder content).1 = [msgNoShuffle, msgNoConfig] ∨
      (extract_decoder content).1 = [msgNoConfig]) := by
  cases h8 : reSearch m8b05 content with
  | none =>
    rw [extract_eq_no8b05 h8]
    constructor
    · intro hs
      simp at hs
    · intro _
      exact Or.inl rfl
  | some q =>
    rw [extract_eq_stage h8]
    cases hb : Option.orElse (reSearch mB4a0Pat1 content)
        (fun _ => reSearch mB4a0Pat2 content) with
    | some p =>
      rw [stageB4a0_eq_regex hb]
      have hs := stageShuffle_msgs content (pySlice content q.1 (q.1 + q.2))
        (pySlice content p.1 (p.1 + p.2))
      refine ⟨hs.1, fun h => ?_⟩
      rcases hs.2 h with h1 | h1 | h1 | h1
      · exact Or.inr (Or.inr (Or.inr (Or.inl h1)))
      · exact Or.inr (Or.inr (Or.inr (Or.inr (Or.inl h1))))
      · exact Or.inr (Or.inr (Or.inr (Or.inr (Or.inr (Or.inl h1)))))
      · exact Or.inr (Or.inr (Or.inr (Or.inr (Or.inr (Or.inr h1)))))
    | none =>
      cases hf : strFind tokB4a0Find content with
      | none =>
        rw [stageB4a0_eq_noStart hb hf]
        constructor
        · intro hs
          simp at hs
        · intro _
          exact Or.inr (Or.inl rfl)
      | some i =>
        cases hff : strFindFrom tokShuffleStart content i with
        | none =>
          rw [stageB4a0_eq_noEnd hb hf hff]
          constructor
          · intro hs
            simp at hs
          · intro _
            exact Or.inr (Or.inr (Or.inl rfl))
        | some j =>
          rw [stageB4a0_eq_fallback hb hf hff]
          have hs := stageShuffle_msgs content
            (pySlice content q.1 (q.1 + q.2)) (pySlice content i j)
          refine ⟨hs.1, fun h => ?_⟩
          rcases hs.2 h with h1 | h1 | h1 | h1
          · exact Or.inr (Or.inr (Or.inr (Or.inl h1)))
          · exact Or.inr (Or.inr (Or.inr (Or.inr (Or.inl h1))))
          · exact Or.inr (Or.inr (Or.inr (Or.inr (Or.inr (Or.inl h1)))))
          · exact Or.inr (Or.inr (Or.inr (Or.inr (Or.inr (Or.inr h1)))))

/-- Witness for the amended claim C6: one successful run with exactly
the success message, one failed run with a diagnostic list. -/
theorem C6_messages_amended_witness :
    (extract_decoder docOK).1 = [successMsg] ∧
    ((extract_decoder docB4a0NoEnd).1 = [msgNo8b05] ∨
      (extract_decoder docB4a0NoEnd).1 = [msgNoB4a0] ∨
      (extract_decoder docB4a0NoEnd).1 = [msgNoB4a0End] ∨
      (extract_decoder docB4a0NoEnd).1 = [msgNoShuffle] ∨
      (extract_decoder docB4a0NoEnd).1 = [msgNoShuffle, msgNoShuffleEnd] ∨
      (extract_decoder docB4a0NoEnd).1 = [msgNoShuffle, msgNoConfig] ∨
      (extract_decoder docB4a0NoEnd).1 = [msgNoConfig]) :=
  ⟨((C6_messages_amended docOK).1 (by decide)).1 (by decide),
    (C6_messages_amended docB4a0NoEnd).2 (by decide)⟩

/-- Counterexample to claim C9 as stated: the lookup-table start marker
occurs at position 0 and again at position 38, but the extracted match
starts at position 38 because the first occurrence admits no complete
match; the run still succeeds. -/
theorem C9_counterexample :
    strFind tok8b05Start docC9 = some 0 ∧
    strFindFrom tok8b05Start docC9 1 = some 38 ∧
    reSearch m8b05 docC9 = some (38, 38) ∧
    (extract_decoder docC9).2.isSome = true := by decide

/-- Claim C9 (amended): every strategy is leftmost-match: a regex
search returns the earliest position where the complete pattern
matches, and a literal find returns the earliest occurrence; the first
start-marker occurrence wins only when the complete pattern matches
there. -/
theorem C9_leftmost_amended :
    (∀ (m : List Char → Option Nat) (s : List Char) (i l : Nat),
      reSearch m s = some (i, l) →
      m (List.drop i s) = some l ∧ ∀ k, k < i → m (List.drop k s) = none) ∧
    (∀ (pat s : List Char) (n : Nat), strFind pat s = some n →
      pat.isPrefixOf (List.drop n s) = true ∧
      ∀ k, k < n → pat.isPrefixOf (List.drop k s) = false) :=
  ⟨reSearch_spec, strFind_spec⟩

/-- Witness for the amended claim C9 on the double-marker document. -/
theorem C9_leftmost_amended_witness :
    (m8b05 (List.drop 38 docC9) = some 38 ∧
      ∀ k, k < 38 → m8b05 (List.drop k docC9) = none) ∧
    (tok8b05Start.isPrefixOf (List.drop 0 docC9) = true ∧
      ∀ k, k < 0 → tok8b05Start.isPrefixOf (List.drop k docC9) = false) :=
  ⟨C9_leftmost_amended.1 m8b05 docC9 38 38 (by decide),
    C9_leftmost_amended.2 tok8b05Start docC9 0 (by decide)⟩

/-- Claim C10: when every occurrence of the lookup-table end token that
lies after a start token is separated from it by a newline, the
lookup-table regex cannot match and the whole run aborts with the
lookup-table diagnostic, even though both tokens are present. -/
theorem C10_newline_blocks (content : List Char)
    (h1 : (strFind tok8b05Start content).isSome = true)
    (h2 : (strFind tok8b05End content).isSome = true)
    (hsep : ∀ i, i < content.length → ∀ j, j < content.length →
      (tok8b05Start.isPrefixOf (List.drop i content) = true ∧
        tok8b05End.isPrefixOf (List.drop j content) = true ∧
        i + tok8b05Start.length ≤ j) →
      Char.ofNat 10 ∈ pySlice content (i + tok8b05Start.length) j) :
    reSearch m8b05 content = none ∧
      extract_decoder content = ([msgNo8b05], none) := by
  have hnone : reSearch m8b05 content = none := by
    cases hq : reSearch m8b05 content with
    | none => rfl
    | some q =>
      obtain ⟨qi, ql⟩ := q
      exfalso
      have hm := (reSearch_spec _ _ _ _ hq).1
      unfold m8b05 at hm
      obtain ⟨j, hA, hB, hnl, hlen, -⟩ := litLazyLit_some hm
      rw [List.drop_drop] at hB
      have hi : qi < content.length :=
        lt_length_of_isPrefixOf (by decide) hA
      have hB2 : tok8b05End.isPrefixOf
          (List.drop (qi + tok8b05Start.length + j) content) = true := by
        rw [Nat.add_assoc]
        exact hB
      have hj2 : qi + tok8b05Start.length + j < content.length :=
        lt_length_of_isPrefixOf (by decide) hB2
      have hcontra := hsep qi hi (qi + tok8b05Start.length + j) hj2
        ⟨hA, hB2, by omega⟩
      rw [List.drop_drop] at hnl
      unfold pySlice at hcontra
      have harith : qi + tok8b05Start.length + j - (qi + tok8b05Start.length)
          = j := by omega
      rw [harith] at hcontra
      exact hnl _ hcontra rfl
  exact ⟨hnone, extract_eq_no8b05 hnone⟩

/-- Witness for claim C10 on the document whose two tokens are split by
a newline. -/
theorem C10_newline_blocks_witness :
    reSearch m8b05 docNl = none ∧ extract_decoder docNl = ([msgNo8b05], none) :=
  C10_newline_blocks docNl (by decide) (by decide) (by decide)
